import Mathlib

/-!
# Verification of the DocChat-RAG ingestion pipeline and chat chain

Shallow embedding of `DocChatRAG/ingestion/pipeline.py` and
`DocChatRAG/chat/chain.py`.  Python dictionaries holding document metadata
are modelled as partial maps `String → Option MetaVal`; external
collaborators (the langchain loaders, the recursive text splitter and the
vector store) are parameters collected in a `PipelineEnv`, with the code of
the repository itself translated function by function.
-/

namespace DocChatRAG

/-- A Python value stored in a document-metadata dictionary: the pipeline
stores strings and ints, and `dict.get` of a missing key yields `None`. -/
inductive MetaVal where
  | str : String → MetaVal
  | int : Nat → MetaVal
  | none : MetaVal
deriving DecidableEq, Repr

/-- Rendering of a metadata value inside a Python f-string. -/
def MetaVal.render : MetaVal → String
  | .str s => s
  | .int n => toString n
  | .none => "None"

/-- A metadata dictionary, modelled as a partial map from keys to values. -/
def Metadata := String → Option MetaVal

/-- The empty metadata dictionary. -/
def Metadata.empty : Metadata := fun _ => Option.none

/-- `d[k] = v` / one key of a `dict.update`: set key `k` to value `v`. -/
def Metadata.set (m : Metadata) (k : String) (v : MetaVal) : Metadata :=
  fun q => if q == k then some v else m q

/-- `d.get(k, default)`. -/
def Metadata.getD (m : Metadata) (k : String) (v : MetaVal) : MetaVal :=
  (m k).getD v

/-- A langchain `Document`: page content plus a metadata dictionary. -/
structure Document where
  pageContent : String
  metadata : Metadata

@[simp] theorem Metadata.get_set_self (m : Metadata) (k : String) (v : MetaVal) :
    Metadata.set m k v k = some v := by
  simp [Metadata.set]

theorem Metadata.get_set_ne (m : Metadata) (k q : String) (v : MetaVal)
    (h : q ≠ k) : Metadata.set m k v q = m q := by
  simp [Metadata.set, h]

/-! ## Source type detection (`_detect_source_type`) -/

/-- Python `s.startswith(p)`, via character lists so that the kernel can
evaluate it. -/
def strStartsWith (s p : String) : Bool :=
  p.toList.isPrefixOf s.toList

/-- Split a character list at every occurrence of `sep`. -/
def splitOnChar (sep : Char) : List Char → List (List Char)
  | [] => [[]]
  | c :: rest =>
      match splitOnChar sep rest with
      | [] => [[]]
      | g :: gs => if c = sep then [] :: g :: gs else (c :: g) :: gs

/-- ASCII lowercasing of one character, as `str.lower` does on ASCII. -/
def lowerChar (c : Char) : Char :=
  if 'A' ≤ c && c ≤ 'Z' then Char.ofNat (c.toNat + 32) else c

/-- Python `s.lower()` restricted to ASCII, which covers every extension in
the pipeline's table. -/
def strToLower (s : String) : String :=
  String.mk (s.toList.map lowerChar)

/-- The final path component, as `pathlib.Path(source).name` computes it for
a POSIX path: components are split on `/`, with empty and `.` components
dropped. -/
def pathName (source : String) : String :=
  (((splitOnChar '/' source.toList).map String.mk).filter
    (fun c => c ≠ "" && c ≠ ".")).getLast?.getD ""

/-- Index of the last `.` in a list of characters, if any. -/
def rfindDot (cs : List Char) : Option Nat :=
  match cs.reverse.findIdx? (· = '.') with
  | some j => some (cs.length - 1 - j)
  | Option.none => Option.none

/-- `pathlib.Path(source).suffix`: the substring of the name from its last
dot, provided that dot is neither the first nor the last character. -/
def pathSuffix (source : String) : String :=
  let name := (pathName source).toList
  match rfindDot name with
  | some i => if 0 < i && i + 1 < name.length then String.mk (name.drop i) else ""
  | Option.none => ""

/-- The fixed extension → kind table of `_detect_source_type`. -/
def typeMapping : List (String × String) :=
  [(".pdf", "pdf"), (".docx", "docx"), (".doc", "docx"), (".csv", "csv"),
   (".txt", "text"), (".md", "text"), (".py", "text"), (".json", "text"),
   (".png", "image"), (".jpg", "image"), (".jpeg", "image")]

/-- `_detect_source_type`: URL prefixes give `web`; otherwise the lowercased
extension is looked up in `typeMapping`, defaulting to `text`. -/
def detectSourceType (source : String) : String :=
  if strStartsWith source "http://" || strStartsWith source "https://" then "web"
  else
    let extension := strToLower (pathSuffix source)
    ((typeMapping.find? (fun p => p.1 == extension)).map (fun p => p.2)).getD "text"

/-- The `source_type` actually used by `load_document`: the explicit kind
when one is supplied, else the detected one. -/
def resolveSourceType (source : String) (sourceType : Option String) : String :=
  match sourceType with
  | some t => t
  | Option.none => detectSourceType source

example : detectSourceType "docs/report.PDF" = "pdf" := by decide
example : detectSourceType "http://example.com/a.png" = "web" := by decide
example : detectSourceType "notes.xyz" = "text" := by decide
example : detectSourceType "archive" = "text" := by decide
example : detectSourceType "dir/.pdf" = "text" := by decide
example : resolveSourceType "a.pdf" (some "csv") = "csv" := by decide

/-! ## The pipeline environment

The loaders, the text splitter and the vector store are external
collaborators of `pipeline.py`; they enter the embedding as parameters.  An
`Except .error` value models the callee raising a Python exception. -/

/-- A Python exception, reduced to its message as the pipeline only ever
interpolates exceptions into f-strings. -/
structure PyErr where
  msg : String
deriving DecidableEq, Repr

/-- External collaborators of the pipeline:
* `load source source_type` — the `loader.load()` call made by
  `load_document` after `_get_loader` resolved a supported kind,
* `split doc` — `self.text_splitter.split_documents([doc])`,
* `store docs ids` — `self.vector_store.add_documents(documents, ids)`,
* `timestamp` — `datetime.now().isoformat()` for this run. -/
structure PipelineEnv where
  load : String → String → Except PyErr (List Document)
  split : Document → Except PyErr (List Document)
  store : List Document → List MetaVal → Except PyErr Unit
  timestamp : String

/-- The keys of the loader table in `_get_loader`; any other kind raises
`ValueError` there. -/
def supportedTypes : List String :=
  ["pdf", "docx", "csv", "text", "web", "image"]

/-- `load_document`: resolve the source type, build the loader and run it,
then stamp `source`, `source_type` and `ingestion_timestamp` onto each
document.  Any exception — an unsupported kind from `_get_loader` or a
loader failure — is caught and turned into the empty list. -/
def loadDocument (env : PipelineEnv) (source : String)
    (sourceType : Option String) : List Document :=
  let st := resolveSourceType source sourceType
  if supportedTypes.contains st then
    match env.load source st with
    | .ok documents =>
        documents.map (fun doc =>
          { doc with metadata := ((doc.metadata.set "source" (.str source)).set
              "source_type" (.str st)).set "ingestion_timestamp" (.str env.timestamp) })
    | .error _ => []
  else []

/-- The chunk-level metadata update of `split_documents`: chunk `i` of `n`
cut from `doc` gains `chunk_id`, `chunk_index`, `total_chunks` and
`original_source`. -/
def enrichChunk (doc : Document) (n : Nat) (i : Nat) (chunk : Document) : Document :=
  let chunkId : MetaVal :=
    .str ((doc.metadata.getD "source" (.str "unknown")).render ++ "_" ++ toString i)
  let m1 := chunk.metadata.set "chunk_id" chunkId
  let m2 := m1.set "chunk_index" (.int i)
  let m3 := m2.set "total_chunks" (.int n)
  let m4 := m3.set "original_source" ((doc.metadata "source").getD MetaVal.none)
  { chunk with metadata := m4 }

/-- The chunks produced from one document, in order. -/
def enrichChunks (doc : Document) (chunks : List Document) : List Document :=
  chunks.enum.map (fun p => enrichChunk doc chunks.length p.1 p.2)

/-- `split_documents`: split each document with the configured splitter and
enrich every chunk.  A splitter exception aborts the loop and propagates to
the caller. -/
def splitDocuments (split : Document → Except PyErr (List Document)) :
    List Document → Except PyErr (List Document)
  | [] => .ok []
  | doc :: rest => do
      let chunks ← split doc
      let more ← splitDocuments split rest
      pure (enrichChunks doc chunks ++ more)

/-- The `ids` list computed by `store_documents`:
`doc.metadata.get('chunk_id', f"chunk_{i}")` for each position `i`. -/
def storeIds (documents : List Document) : List MetaVal :=
  documents.enum.map (fun p =>
    p.2.metadata.getD "chunk_id" (.str ("chunk_" ++ toString p.1)))

/-- The `processing_summary` attached by `process_source`. -/
structure ProcessingSummary where
  source : String
  sourceType : String
  originalDocuments : Nat
  totalChunks : Nat
deriving DecidableEq, Repr

/-- The outcome record built by `store_documents` / `process_source`.
Optional fields are keys that only some branches put into the dict. -/
structure IngestionResult where
  success : Bool
  message : String
  chunkCount : Option Nat
  sources : Option (List (Option MetaVal))
  processingSummary : Option ProcessingSummary
deriving DecidableEq, Repr

/-- A failure record carrying only `success` and `message`. -/
def failResult (message : String) : IngestionResult :=
  { success := false, message := message, chunkCount := Option.none,
    sources := Option.none, processingSummary := Option.none }

/-- One `vector_store.add_documents` call: the documents and their ids. -/
abbrev StoreCall := List Document × List MetaVal

/-- `store_documents`, instrumented with the list of `add_documents` calls
it makes.  The call happens before its outcome is known, so both the
success and the failure branch record it. -/
def storeDocuments (env : PipelineEnv) (documents : List Document) :
    IngestionResult × List StoreCall :=
  if documents.isEmpty then (failResult "No documents to store", [])
  else
    let ids := storeIds documents
    match env.store documents ids with
    | .ok _ =>
        ({ success := true,
           message := "Successfully stored " ++ toString documents.length
             ++ " document chunks",
           chunkCount := some documents.length,
           sources := some ((documents.map (fun d => d.metadata "original_source")).dedup),
           processingSummary := Option.none }, [(documents, ids)])
    | .error e =>
        (failResult ("Failed to store documents: " ++ e.msg), [(documents, ids)])

/-- `process_source` (load → split → store), instrumented with the store
calls made.  The surrounding `try`/`except` catches the splitter's
exceptions; `load_document` and `store_documents` already catch their own. -/
def processSourceT (env : PipelineEnv) (source : String)
    (sourceType : Option String) : IngestionResult × List StoreCall :=
  let documents := loadDocument env source sourceType
  if documents.isEmpty then (failResult "No documents loaded", [])
  else
    match splitDocuments env.split documents with
    | .error e => (failResult ("Pipeline failed for " ++ source ++ ": " ++ e.msg), [])
    | .ok chunks =>
        if chunks.isEmpty then (failResult "No chunks created", [])
        else
          let summary : ProcessingSummary :=
            { source := source,
              sourceType := resolveSourceType source sourceType,
              originalDocuments := documents.length,
              totalChunks := chunks.length }
          let (result, calls) := storeDocuments env chunks
          ({ result with processingSummary := some summary }, calls)

/-- `process_source` as the caller sees it: just the outcome record. -/
def processSource (env : PipelineEnv) (source : String)
    (sourceType : Option String) : IngestionResult :=
  (processSourceT env source sourceType).1

/-- One entry of the list handed to `process_multiple_sources`. -/
structure SourceConfig where
  source : String
  type : Option String

/-- The batch summary built by `process_multiple_sources`. -/
structure BatchSummary where
  success : Bool
  totalSources : Nat
  successfulSources : Nat
  failedSources : Nat
  totalChunksStored : Nat
  detailedResults : List (String × IngestionResult)

/-- The loop body of `process_multiple_sources`: process one source, append
its record, and bump the success and chunk counters. -/
def batchStep (env : PipelineEnv)
    (acc : List (String × IngestionResult) × Nat × Nat) (sc : SourceConfig) :
    List (String × IngestionResult) × Nat × Nat :=
  let result := processSource env sc.source sc.type
  (acc.1 ++ [(sc.source, result)],
   acc.2.1 + (if result.success then result.chunkCount.getD 0 else 0),
   acc.2.2 + (if result.success then 1 else 0))

/-- `process_multiple_sources`: run the loop, then build the summary. -/
def processMultipleSources (env : PipelineEnv) (sources : List SourceConfig) :
    BatchSummary :=
  let acc := sources.foldl (batchStep env) ([], 0, 0)
  { success := decide (0 < acc.2.2),
    totalSources := sources.length,
    successfulSources := acc.2.2,
    failedSources := sources.length - acc.2.2,
    totalChunksStored := acc.2.1,
    detailedResults := acc.1 }

/-! ## Chat side (`chat/chain.py`): session history and context formatting -/

/-- One message of a conversation transcript. -/
inductive ChatMsg where
  | human : String → ChatMsg
  | ai : String → ChatMsg
deriving DecidableEq, Repr

/-- The module-level `_store` dict: session id → transcript, in insertion
order. -/
abbrev SessionStore := List (String × List ChatMsg)

/-- `get_session_history`: create an empty history on first access, then
return the stored history.  The updated store is returned alongside. -/
def getSessionHistory (store : SessionStore) (sessionId : String) :
    SessionStore × List ChatMsg :=
  match store.find? (fun p => p.1 == sessionId) with
  | some p => (store, p.2)
  | Option.none => (store ++ [(sessionId, [])], [])

/-- Modelled from the spec: `append(session_id, user_message,
assistant_message)` of §4.8 — the append path is executed by langchain's
`RunnableWithMessageHistory` over the history object that
`get_session_history` returns, code that is not part of this repository.
Per the spec it fetches (creating if needed) the session's history and
appends the user and assistant messages, in that order, at the end. -/
def appendTurn (store : SessionStore) (sessionId user assistant : String) :
    SessionStore :=
  let store1 := (getSessionHistory store sessionId).1
  store1.map (fun p =>
    if p.1 == sessionId then
      (p.1, p.2 ++ [ChatMsg.human user, ChatMsg.ai assistant])
    else p)

/-- `format_docs`: each document rendered with its 1-based index and source
metadata, joined by blank lines. -/
def formatDocs (docs : List Document) : String :=
  String.intercalate "\n\n" (docs.enum.map (fun p =>
    "[" ++ toString (p.1 + 1) ++ "] " ++ p.2.pageContent ++ "\nSOURCE: "
      ++ ((p.2.metadata "source").getD MetaVal.none).render))

/-- The rendering the claim describes for result number `i` (1-based):
`'[i] '` then the text, a newline, `'SOURCE: '` and the source metadata. -/
def renderDocAt (i : Nat) (d : Document) : String :=
  "[" ++ toString i ++ "] " ++ d.pageContent ++ "\nSOURCE: "
    ++ ((d.metadata "source").getD MetaVal.none).render

/-- The renderings of a result list, numbering from `i`. -/
def formatDocsFrom (i : Nat) : List Document → List String
  | [] => []
  | d :: rest => renderDocAt i d :: formatDocsFrom (i + 1) rest

/-- The claim's description of `format_docs`: the 1-based renderings joined
by a blank line. -/
def formatDocsFromSpec (docs : List Document) : String :=
  String.intercalate "\n\n" (formatDocsFrom 1 docs)

/-! ## Concrete fixtures used by counterexamples and witnesses -/

/-- A raw document as a loader would hand it over, before enrichment. -/
def rawDoc (text : String) : Document :=
  { pageContent := text, metadata := Metadata.empty }

/-- An environment whose loader yields two raw documents from any source
(as `PyPDFLoader` does for a two-page PDF), whose splitter leaves a short
document as its single chunk, and whose store accepts every write. -/
def envTwoPage : PipelineEnv :=
  { load := fun _ _ => .ok [rawDoc "page one", rawDoc "page two"],
    split := fun d => .ok [d],
    store := fun _ _ => .ok (),
    timestamp := "2024-01-01T00:00:00" }

/-- An environment whose loader always raises. -/
def envLoadFail : PipelineEnv :=
  { load := fun _ _ => .error { msg := "decode error" },
    split := fun d => .ok [d],
    store := fun _ _ => .ok (),
    timestamp := "2024-01-01T00:00:00" }

/-- An environment whose splitter always raises. -/
def envSplitFail : PipelineEnv :=
  { load := fun _ _ => .ok [rawDoc "page one"],
    split := fun _ => .error { msg := "splitter blew up" },
    store := fun _ _ => .ok (),
    timestamp := "2024-01-01T00:00:00" }

/-- An environment whose vector store rejects every write. -/
def envStoreFail : PipelineEnv :=
  { load := fun _ _ => .ok [rawDoc "page one"],
    split := fun d => .ok [d],
    store := fun _ _ => .error { msg := "index unreachable" },
    timestamp := "2024-01-01T00:00:00" }

/-- A single-document environment on which the whole pipeline succeeds. -/
def envOneDoc : PipelineEnv :=
  { load := fun _ _ => .ok [rawDoc "hello world"],
    split := fun d => .ok [d],
    store := fun _ _ => .ok (),
    timestamp := "2024-01-01T00:00:00" }

example : (processSource envOneDoc "a.txt" Option.none).success = true := by decide
example : (processSource envOneDoc "a.txt" Option.none).chunkCount = some 1 := by decide
example : (processSource envLoadFail "a.txt" Option.none).message = "No documents loaded" := by
  decide
example : ((processSourceT envTwoPage "multi.pdf" Option.none).2.map (fun c => c.2)) =
    [[MetaVal.str "multi.pdf_0", MetaVal.str "multi.pdf_0"]] := by decide
example : (processSource envSplitFail "a.txt" Option.none).message =
    "Pipeline failed for a.txt: splitter blew up" := by decide
example : (processSource envStoreFail "a.txt" Option.none).message =
    "Failed to store documents: index unreachable" := by decide
example :
    (processMultipleSources envLoadFail
      [{ source := "a.txt", type := Option.none }]).failedSources = 1 := by decide

/-! ## Helper lemmas -/

theorem append_ne_empty_left (s t : String) (h : s ≠ "") : s ++ t ≠ "" := by
  intro he
  apply h
  have hl := congrArg String.length he
  rw [String.length_append] at hl
  have hz : s.length = 0 := by
    have : String.length "" = 0 := rfl
    omega
  cases s with
  | mk data =>
      cases data with
      | nil => rfl
      | cons c cs => simp [String.length] at hz

/-- `detectSourceType` away from URLs is the table lookup with default. -/
theorem detectSourceType_of_not_url (source : String)
    (h1 : strStartsWith source "http://" = false)
    (h2 : strStartsWith source "https://" = false) :
    detectSourceType source =
      ((typeMapping.find? (fun p => p.1 == strToLower (pathSuffix source))).map
        (fun p => p.2)).getD "text" := by
  simp [detectSourceType, h1, h2]

/-- The table has pairwise distinct keys, so a key hit determines the hit. -/
theorem typeMapping_find_of_mem (ext : String) (p : String × String)
    (hp : p ∈ typeMapping) (hk : p.1 = ext) :
    (typeMapping.find? (fun q => q.1 == ext)).map (fun q => q.2) = some p.2 := by
  subst hk
  simp only [typeMapping, List.mem_cons, List.not_mem_nil, or_false] at hp
  rcases hp with h | h | h | h | h | h | h | h | h | h | h <;> subst h <;> decide

/-- **C5**: source-type detection is a total function of the source string:
an explicit kind is used verbatim, an `http://`/`https://` prefix yields
`web`, otherwise the lowercased extension is looked up in the fixed table,
with every unmapped extension yielding `text`. -/
theorem detect_source_type_contract (source kind : String) :
    resolveSourceType source (some kind) = kind
    ∧ ((strStartsWith source "http://" = true ∨ strStartsWith source "https://" = true) →
        detectSourceType source = "web")
    ∧ (strStartsWith source "http://" = false →
        strStartsWith source "https://" = false →
        (∀ p ∈ typeMapping, p.1 = strToLower (pathSuffix source) →
          detectSourceType source = p.2)
        ∧ ((∀ p ∈ typeMapping, p.1 ≠ strToLower (pathSuffix source)) →
          detectSourceType source = "text")) := by
  refine ⟨rfl, ?_, ?_⟩
  · intro h
    rcases h with h | h <;> simp [detectSourceType, h]
  · intro h1 h2
    constructor
    · intro p hp hk
      rw [detectSourceType_of_not_url source h1 h2,
        typeMapping_find_of_mem _ p hp hk]
      rfl
    · intro hall
      rw [detectSourceType_of_not_url source h1 h2]
      have : typeMapping.find? (fun q => q.1 == strToLower (pathSuffix source)) =
          Option.none := by
        rw [List.find?_eq_none]
        intro q hq
        simpa using hall q hq
      rw [this]
      rfl

/-- Witness for C5 at concrete sources: an explicit kind wins, a URL with a
mapped extension is still `web`, `.pdf` maps to `pdf`, and an unmapped
extension falls back to `text`. -/
theorem detect_source_type_contract_witness :
    resolveSourceType "report.pdf" (some "csv") = "csv"
    ∧ detectSourceType "https://example.com/report.pdf" = "web"
    ∧ detectSourceType "report.pdf" = "pdf"
    ∧ detectSourceType "notes.xyz" = "text" := by
  refine ⟨(detect_source_type_contract "report.pdf" "csv").1,
    (detect_source_type_contract "https://example.com/report.pdf" "csv").2.1
      (Or.inr (by decide)),
    ((detect_source_type_contract "report.pdf" "csv").2.2 (by decide) (by decide)).1
      (".pdf", "pdf") (by decide) (by decide),
    ((detect_source_type_contract "notes.xyz" "csv").2.2 (by decide) (by decide)).2
      (by decide)⟩

/-- **C2, counterexample**: a loader failure is not propagated — it is
swallowed into an empty document list, and the caller of the loading layer
only ever sees `{success := false, message := "No documents loaded"}`
without the source's underlying cause. -/
theorem load_failure_not_propagated_counterexample :
    loadDocument envLoadFail "a.txt" Option.none = []
    ∧ processSource envLoadFail "a.txt" Option.none =
        failResult "No documents loaded" := ⟨rfl, rfl⟩

/-- **C2, amended**: when the loader itself fails, `load_document` catches
the failure and converts it into an empty document list (no retry, no
propagated `LoadFailure`), and `process_source` then reports
`success := false` with the generic message `"No documents loaded"`. -/
theorem load_failure_becomes_empty_list (env : PipelineEnv) (source : String)
    (sourceType : Option String) (e : PyErr)
    (h : env.load source (resolveSourceType source sourceType) = .error e) :
    loadDocument env source sourceType = []
    ∧ processSource env source sourceType = failResult "No documents loaded" := by
  have hload : loadDocument env source sourceType = [] := by
    unfold loadDocument
    cases hc : supportedTypes.contains (resolveSourceType source sourceType) <;>
      simp [hc, h]
  exact ⟨hload, by simp [processSource, processSourceT, hload]⟩

/-- Witness for the amended C2 at a concrete failing loader. -/
theorem load_failure_becomes_empty_list_witness :
    loadDocument envLoadFail "a.txt" Option.none = []
    ∧ processSource envLoadFail "a.txt" Option.none =
        failResult "No documents loaded" :=
  load_failure_becomes_empty_list envLoadFail "a.txt" Option.none
    { msg := "decode error" } rfl

/-- **C1**: one `process_source` run on a source whose loader yields two
raw documents (a two-page PDF) stores two distinct chunks under the *same*
chunk id `multi.pdf_0` — the per-document chunk index restarts at 0, so the
chunk ids of a run are not pairwise distinct. -/
theorem chunk_id_collision_two_page_source :
    ((processSourceT envTwoPage "multi.pdf" Option.none).2.map (fun c => c.2)) =
      [[MetaVal.str "multi.pdf_0", MetaVal.str "multi.pdf_0"]]
    ∧ ((processSourceT envTwoPage "multi.pdf" Option.none).2.map
        (fun c => c.1.map (fun d => d.pageContent))) = [["page one", "page two"]]
    ∧ (processSource envTwoPage "multi.pdf" Option.none).success = true :=
  ⟨by decide, by decide, by decide⟩

/-- **C7**: a source from which zero documents are loaded makes
`process_source` return `success := false` with no
`vector_store.add_documents` call at all. -/
theorem no_documents_skips_storage (env : PipelineEnv) (source : String)
    (sourceType : Option String) (h : loadDocument env source sourceType = []) :
    processSourceT env source sourceType = (failResult "No documents loaded", []) := by
  simp [processSourceT, h]

/-- Witness for C7: a concrete failing loader loads zero documents, and the
run both fails and performs no store call. -/
theorem no_documents_skips_storage_witness :
    processSourceT envLoadFail "a.txt" Option.none =
      (failResult "No documents loaded", []) :=
  no_documents_skips_storage envLoadFail "a.txt" Option.none rfl

theorem formatDocs_enumFrom (n : Nat) (docs : List Document) :
    (List.enumFrom n docs).map (fun p => renderDocAt (p.1 + 1) p.2) =
      formatDocsFrom (n + 1) docs := by
  induction docs generalizing n with
  | nil => rfl
  | cons d rest ih => simp [List.enumFrom, formatDocsFrom, ih]

/-- **C9**: `format_docs` is exactly the pure rendering the claim
describes — result `i` (1-based, in retrieval order) becomes
`'[i] '` + text + newline + `'SOURCE: '` + source metadata, and the
renderings are joined by a blank line. -/
theorem format_docs_is_indexed_rendering (docs : List Document) :
    formatDocs docs = formatDocsFromSpec docs := by
  show String.intercalate "\n\n"
      ((List.enumFrom 0 docs).map (fun p => renderDocAt (p.1 + 1) p.2)) =
    String.intercalate "\n\n" (formatDocsFrom 1 docs)
  rw [formatDocs_enumFrom]

/-- The `chunk_id` metadata values of a chunk list, in order. -/
def chunkIds (chunks : List Document) : List (Option MetaVal) :=
  chunks.map (fun c => c.metadata "chunk_id")

theorem enrichChunk_chunk_id (doc c : Document) (n i : Nat) :
    (enrichChunk doc n i c).metadata "chunk_id" =
      some (.str ((doc.metadata.getD "source" (.str "unknown")).render
        ++ "_" ++ toString i)) := by
  simp [enrichChunk, Metadata.set]

theorem enrichChunks_ids (doc : Document) (cs : List Document) :
    chunkIds (enrichChunks doc cs) =
      (List.range cs.length).map (fun i =>
        some (MetaVal.str ((doc.metadata.getD "source" (.str "unknown")).render
          ++ "_" ++ toString i))) := by
  unfold chunkIds enrichChunks
  rw [List.map_map]
  have h1 : cs.enum.map
      ((fun c => c.metadata "chunk_id") ∘ fun p => enrichChunk doc cs.length p.1 p.2) =
      cs.enum.map (fun p =>
        (some (MetaVal.str ((doc.metadata.getD "source" (.str "unknown")).render
          ++ "_" ++ toString p.1)) : Option MetaVal)) :=
    List.map_congr_left (fun p _ => enrichChunk_chunk_id doc p.2 cs.length p.1)
  rw [h1]
  have h2 : cs.enum.map (fun p =>
      (some (MetaVal.str ((doc.metadata.getD "source" (.str "unknown")).render
        ++ "_" ++ toString p.1)) : Option MetaVal)) =
      (cs.enum.map Prod.fst).map (fun i =>
        (some (MetaVal.str ((doc.metadata.getD "source" (.str "unknown")).render
          ++ "_" ++ toString i)) : Option MetaVal)) := by
    rw [List.map_map]
    exact List.map_congr_left (fun p _ => rfl)
  rw [h2, List.enum_map_fst]

/-- With a splitter that never raises, `split_documents` succeeds and is
the concatenation of the per-document enriched chunk lists. -/
theorem splitDocuments_ok (t : Document → List Document) (docs : List Document) :
    splitDocuments (fun d => .ok (t d)) docs =
      .ok (docs.flatMap (fun doc => enrichChunks doc (t doc))) := by
  induction docs with
  | nil => rfl
  | cons d rest ih =>
      simp only [splitDocuments, ih, List.flatMap_cons]
      rfl

/-- **C4**: chunking is deterministic — two `split_documents` runs over
equal document lists with the same splitter configuration are equal, and
the run's chunk ids are a pure function of each document's `source`
metadata and chunk count: document by document, `source_0 .. source_(n-1)`
in order. -/
theorem split_documents_deterministic (t : Document → List Document)
    (docs docs2 : List Document) (h : docs = docs2) :
    splitDocuments (fun d => .ok (t d)) docs =
      splitDocuments (fun d => .ok (t d)) docs2
    ∧ (splitDocuments (fun d => .ok (t d)) docs).map chunkIds =
        .ok (docs.flatMap (fun doc =>
          (List.range (t doc).length).map (fun i =>
            some (MetaVal.str ((doc.metadata.getD "source" (.str "unknown")).render
              ++ "_" ++ toString i))))) := by
  subst h
  refine ⟨rfl, ?_⟩
  rw [splitDocuments_ok]
  show Except.ok (chunkIds (docs.flatMap fun doc => enrichChunks doc (t doc))) = _
  unfold chunkIds
  rw [List.map_flatMap]
  congr 1
  exact List.flatMap_congr (fun doc _ => enrichChunks_ids doc (t doc))

/-- A document that already carries `source` metadata, as every document
reaching `split_documents` through `load_document` does. -/
def docWithSource : Document :=
  { pageContent := "hello", metadata := Metadata.empty.set "source" (.str "a.txt") }

/-- Witness for C4: on a concrete one-document list with a one-chunk
splitter the run yields exactly the chunk id `a.txt_0`. -/
theorem split_documents_deterministic_witness :
    (splitDocuments (fun d => .ok [d]) [docWithSource]).map chunkIds =
      .ok [some (MetaVal.str "a.txt_0")] := by
  have h := (split_documents_deterministic (fun d => [d])
    [docWithSource] [docWithSource] rfl).2
  simpa using h

/-- Every `process_source` outcome: one of the four structured failure
records, or a success record. -/
theorem processSource_cases (env : PipelineEnv) (source : String)
    (st : Option String) :
    processSource env source st = failResult "No documents loaded"
    ∨ (∃ e : PyErr, processSource env source st =
        failResult ("Pipeline failed for " ++ source ++ ": " ++ e.msg))
    ∨ processSource env source st = failResult "No chunks created"
    ∨ (∃ (e : PyErr) (sm : ProcessingSummary), processSource env source st =
        { failResult ("Failed to store documents: " ++ PyErr.msg e) with
          processingSummary := some sm })
    ∨ (processSource env source st).success = true := by
  cases hdoc : (loadDocument env source st).isEmpty with
  | true => exact Or.inl (by simp [processSource, processSourceT, hdoc])
  | false =>
      cases hsp : splitDocuments env.split (loadDocument env source st) with
      | error e =>
          exact Or.inr (Or.inl ⟨e, by simp [processSource, processSourceT, hdoc, hsp]⟩)
      | ok chunks =>
          cases hch : chunks.isEmpty with
          | true =>
              exact Or.inr (Or.inr (Or.inl
                (by simp [processSource, processSourceT, hdoc, hsp, hch])))
          | false =>
              cases hst : env.store chunks (storeIds chunks) with
              | ok u =>
                  refine Or.inr (Or.inr (Or.inr (Or.inr ?_)))
                  simp [processSource, processSourceT, hdoc, hsp, hch,
                    storeDocuments, hst]
              | error e =>
                  refine Or.inr (Or.inr (Or.inr (Or.inl ⟨e,
                    { source := source,
                      sourceType := resolveSourceType source st,
                      originalDocuments := (loadDocument env source st).length,
                      totalChunks := chunks.length }, ?_⟩)))
                  simp [processSource, processSourceT, hdoc, hsp, hch,
                    storeDocuments, hst, failResult]

/-- **C3**: `process_source` is a failure boundary — it always returns a
structured record: every failure yields `success := false` with a nonempty
message, and in particular an empty load, a splitter exception and a store
rejection each map to their structured failure record rather than
propagating. -/
theorem process_source_failure_boundary (env : PipelineEnv) (source : String)
    (st : Option String) :
    ((processSource env source st).success = false →
      (processSource env source st).message ≠ "")
    ∧ (loadDocument env source st = [] →
        processSource env source st = failResult "No documents loaded")
    ∧ (∀ e : PyErr,
        splitDocuments env.split (loadDocument env source st) = .error e →
        processSource env source st =
          failResult ("Pipeline failed for " ++ source ++ ": " ++ e.msg))
    ∧ (∀ (e : PyErr) (chunks : List Document),
        splitDocuments env.split (loadDocument env source st) = .ok chunks →
        chunks ≠ [] →
        env.store chunks (storeIds chunks) = .error e →
        (processSource env source st).success = false
        ∧ (processSource env source st).message =
            "Failed to store documents: " ++ e.msg) := by
  refine ⟨?_, ?_, ?_, ?_⟩
  · rcases processSource_cases env source st with h | ⟨e, h⟩ | h | ⟨e, sm, h⟩ | h
    · rw [h]; intro _; decide
    · rw [h]
      intro _
      exact append_ne_empty_left _ _
        (append_ne_empty_left _ _ (append_ne_empty_left _ _ (by decide)))
    · rw [h]; intro _; decide
    · rw [h]
      intro _
      show "Failed to store documents: " ++ e.msg ≠ ""
      exact append_ne_empty_left _ _ (by decide)
    · intro hf
      rw [hf] at h
      exact absurd h (by decide)
  · intro h
    simp [processSource, processSourceT, h]
  · intro e he
    have hde : loadDocument env source st ≠ [] := by
      intro hnil
      rw [hnil] at he
      simp [splitDocuments] at he
    have hie : (loadDocument env source st).isEmpty = false := by
      simpa using hde
    simp [processSource, processSourceT, hie, he]
  · intro e chunks hok hne hst
    have hde : loadDocument env source st ≠ [] := by
      intro hnil
      rw [hnil] at hok
      simp [splitDocuments] at hok
      exact hne hok
    have hie : (loadDocument env source st).isEmpty = false := by
      simpa using hde
    have hce : chunks.isEmpty = false := by
      simpa using hne
    constructor <;>
      simp [processSource, processSourceT, hie, hok, hce, storeDocuments, hst,
        failResult]

/-- Witness for C3: a failing loader, a raising splitter and a rejecting
store each produce a structured `success := false` record with a message. -/
theorem process_source_failure_boundary_witness :
    processSource envLoadFail "a.txt" Option.none = failResult "No documents loaded"
    ∧ processSource envSplitFail "a.txt" Option.none =
        failResult ("Pipeline failed for " ++ "a.txt" ++ ": " ++ "splitter blew up")
    ∧ (processSource envStoreFail "a.txt" Option.none).success = false
    ∧ (processSource envStoreFail "a.txt" Option.none).message =
        "Failed to store documents: " ++ "index unreachable" := by
  have h := (process_source_failure_boundary envStoreFail "a.txt" Option.none).2.2.2
    { msg := "index unreachable" } _ rfl (List.cons_ne_nil _ _) rfl
  exact ⟨(process_source_failure_boundary envLoadFail "a.txt" Option.none).2.1 rfl,
    (process_source_failure_boundary envSplitFail "a.txt" Option.none).2.2.1
      { msg := "splitter blew up" } rfl,
    h.1, h.2⟩

/-- The number of batch entries whose `process_source` run succeeds. -/
def batchSuccessCount (env : PipelineEnv) (sources : List SourceConfig) : Nat :=
  (sources.filter (fun sc => (processSource env sc.source sc.type).success)).length

/-- Sum of the `chunk_count` values of the successful entries only. -/
def batchChunkSum (env : PipelineEnv) (sources : List SourceConfig) : Nat :=
  (sources.map (fun sc =>
    if (processSource env sc.source sc.type).success then
      (processSource env sc.source sc.type).chunkCount.getD 0
    else 0)).sum

/-- Characterization of the `process_multiple_sources` loop: the result
list is the independent per-entry map, and the counters are the success
count and the successful chunk sum. -/
theorem batch_foldl (env : PipelineEnv) (sources : List SourceConfig)
    (rs : List (String × IngestionResult)) (tc sc : Nat) :
    sources.foldl (batchStep env) (rs, tc, sc) =
      (rs ++ sources.map (fun c => (c.source, processSource env c.source c.type)),
       tc + batchChunkSum env sources,
       sc + batchSuccessCount env sources) := by
  induction sources generalizing rs tc sc with
  | nil => simp [batchChunkSum, batchSuccessCount]
  | cons c rest ih =>
      rw [List.foldl_cons, ih]
      cases hr : (processSource env c.source c.type).success <;>
        simp [batchStep, hr, batchChunkSum, batchSuccessCount,
          List.filter_cons] <;>
        omega

theorem succ_count_add_fail_count (env : PipelineEnv)
    (sources : List SourceConfig) :
    batchSuccessCount env sources
      + (sources.filter (fun sc : SourceConfig =>
          !(processSource env sc.source sc.type).success)).length
      = sources.length := by
  unfold batchSuccessCount
  exact (List.length_eq_length_filter_add
    (fun sc : SourceConfig => (processSource env sc.source sc.type).success)).symm

/-- **C6**: `process_multiple_sources` on N entries of which exactly M fail
processes each entry independently and reports `total_sources = N`,
`failed_sources = M`, `successful_sources = N - M`, and
`total_chunks_stored` equal to the sum of the chunk counts of the
successful entries only. -/
theorem process_multiple_sources_aggregate (env : PipelineEnv)
    (sources : List SourceConfig) (N M : Nat)
    (hN : N = sources.length)
    (hM : M = (sources.filter (fun sc : SourceConfig =>
        !(processSource env sc.source sc.type).success)).length) :
    (processMultipleSources env sources).totalSources = N
    ∧ (processMultipleSources env sources).failedSources = M
    ∧ (processMultipleSources env sources).successfulSources = N - M
    ∧ (processMultipleSources env sources).totalChunksStored =
        batchChunkSum env sources
    ∧ (processMultipleSources env sources).detailedResults =
        sources.map (fun sc => (sc.source, processSource env sc.source sc.type)) := by
  subst hN
  subst hM
  have hsum := succ_count_add_fail_count env sources
  have hfold := batch_foldl env sources [] 0 0
  simp only [List.nil_append, Nat.zero_add] at hfold
  have hsucc : (sources.foldl (batchStep env) ([], 0, 0)).2.2 =
      batchSuccessCount env sources := by rw [hfold]
  have hchunk : (sources.foldl (batchStep env) ([], 0, 0)).2.1 =
      batchChunkSum env sources := by rw [hfold]
  have hres : (sources.foldl (batchStep env) ([], 0, 0)).1 =
      sources.map (fun c => (c.source, processSource env c.source c.type)) := by
    rw [hfold]
  refine ⟨rfl, ?_, ?_, ?_, ?_⟩
  · show sources.length - (sources.foldl (batchStep env) ([], 0, 0)).2.2 = _
    rw [hsucc]
    omega
  · show (sources.foldl (batchStep env) ([], 0, 0)).2.2 = _
    rw [hsucc]
    omega
  · show (sources.foldl (batchStep env) ([], 0, 0)).2.1 = _
    rw [hchunk]
  · show (sources.foldl (batchStep env) ([], 0, 0)).1 = _
    rw [hres]

/-- An environment in which `good.txt` loads one short document and every
other source fails to load. -/
def envMixed : PipelineEnv :=
  { load := fun source _ =>
      if source == "good.txt" then .ok [rawDoc "hello world"]
      else .error { msg := "missing file" },
    split := fun d => .ok [d],
    store := fun _ _ => .ok (),
    timestamp := "2024-01-01T00:00:00" }

/-- Witness for C6: a batch of two sources of which exactly one fails. -/
theorem process_multiple_sources_aggregate_witness :
    (processMultipleSources envMixed
      [⟨"good.txt", Option.none⟩, ⟨"bad.txt", Option.none⟩]).totalSources = 2
    ∧ (processMultipleSources envMixed
        [⟨"good.txt", Option.none⟩, ⟨"bad.txt", Option.none⟩]).failedSources = 1
    ∧ (processMultipleSources envMixed
        [⟨"good.txt", Option.none⟩, ⟨"bad.txt", Option.none⟩]).successfulSources = 1
    ∧ (processMultipleSources envMixed
        [⟨"good.txt", Option.none⟩, ⟨"bad.txt", Option.none⟩]).totalChunksStored = 1 := by
  have h := process_multiple_sources_aggregate envMixed
    [⟨"good.txt", Option.none⟩, ⟨"bad.txt", Option.none⟩] 2 1 (by decide) (by decide)
  exact ⟨h.1, h.2.1, h.2.2.1, h.2.2.2.1.trans (by decide)⟩

/-- **C10**: the batch success flag is true iff at least one entry
succeeded; the empty batch reports `success := false` with
`total_sources = 0`. -/
theorem batch_success_iff_any (env : PipelineEnv) (sources : List SourceConfig) :
    ((processMultipleSources env sources).success = true ↔
      ∃ sc ∈ sources, (processSource env sc.source sc.type).success = true)
    ∧ (processMultipleSources env []).success = false
    ∧ (processMultipleSources env []).totalSources = 0 := by
  refine ⟨?_, rfl, rfl⟩
  have hfold := batch_foldl env sources [] 0 0
  simp only [List.nil_append, Nat.zero_add] at hfold
  have hsucc : (sources.foldl (batchStep env) ([], 0, 0)).2.2 =
      batchSuccessCount env sources := by rw [hfold]
  show decide (0 < (sources.foldl (batchStep env) ([], 0, 0)).2.2) = true ↔ _
  rw [hsucc, decide_eq_true_iff]
  unfold batchSuccessCount
  rw [← List.countP_eq_length_filter]
  exact List.countP_pos_iff

/-- The history stored for a session id, if any. -/
def lookupSession (store : SessionStore) (sid : String) : Option (List ChatMsg) :=
  (store.find? (fun p => p.1 == sid)).map (fun p => p.2)

theorem getSessionHistory_eq_found (σ : SessionStore) (s : String)
    (p : String × List ChatMsg)
    (hf : σ.find? (fun q => q.1 == s) = some p) :
    getSessionHistory σ s = (σ, p.2) := by
  unfold getSessionHistory
  rw [hf]

theorem getSessionHistory_eq_new (σ : SessionStore) (s : String)
    (hf : σ.find? (fun q => q.1 == s) = Option.none) :
    getSessionHistory σ s = (σ ++ [(s, [])], []) := by
  unfold getSessionHistory
  rw [hf]

theorem find?_singleton_self (s : String) :
    ([(s, ([] : List ChatMsg))].find? (fun q => q.1 == s)) = some (s, []) := by
  simp [List.find?]

theorem find?_singleton_other (s t : String) (h : s ≠ t) :
    ([(s, ([] : List ChatMsg))].find? (fun q => q.1 == t)) = Option.none := by
  have hb : (s == t) = false := beq_eq_false_iff_ne.mpr h
  simp [List.find?, hb]

theorem getSessionHistory_snd (σ : SessionStore) (s : String) :
    (getSessionHistory σ s).2 = (lookupSession σ s).getD [] := by
  cases hf : σ.find? (fun q => q.1 == s) with
  | some p =>
      rw [getSessionHistory_eq_found σ s p hf]
      unfold lookupSession
      rw [hf]
      rfl
  | none =>
      rw [getSessionHistory_eq_new σ s hf]
      unfold lookupSession
      rw [hf]
      rfl

theorem lookup_getSessionHistory_self (σ : SessionStore) (s : String) :
    lookupSession (getSessionHistory σ s).1 s = some (getSessionHistory σ s).2 := by
  cases hf : σ.find? (fun q => q.1 == s) with
  | some p =>
      rw [getSessionHistory_eq_found σ s p hf]
      unfold lookupSession
      rw [hf]
      rfl
  | none =>
      rw [getSessionHistory_eq_new σ s hf]
      unfold lookupSession
      rw [List.find?_append, hf, find?_singleton_self]
      rfl

theorem lookup_getSessionHistory_other (σ : SessionStore) (s t : String)
    (h : s ≠ t) :
    lookupSession (getSessionHistory σ s).1 t = lookupSession σ t := by
  cases hf : σ.find? (fun q => q.1 == s) with
  | some p => rw [getSessionHistory_eq_found σ s p hf]
  | none =>
      rw [getSessionHistory_eq_new σ s hf]
      unfold lookupSession
      rw [List.find?_append, find?_singleton_other s t h]
      cases hg : σ.find? (fun q => q.1 == t) <;> rfl

theorem find?_map_entry (f : String × List ChatMsg → String × List ChatMsg)
    (hf : ∀ p, (f p).1 = p.1) (l : SessionStore) (sid : String) :
    (l.map f).find? (fun p => p.1 == sid) =
      (l.find? (fun p => p.1 == sid)).map f := by
  induction l with
  | nil => rfl
  | cons p rest ih =>
      simp only [List.map_cons, List.find?]
      rw [hf p]
      cases hq : (p.1 == sid) with
      | true => rfl
      | false => exact ih

theorem appendTurn_keyfix (s u a : String) :
    ∀ p : String × List ChatMsg,
      ((fun p : String × List ChatMsg =>
        if p.1 == s then (p.1, p.2 ++ [ChatMsg.human u, ChatMsg.ai a]) else p) p).1
        = p.1 := by
  intro p
  by_cases h : (p.1 == s) = true <;> simp [h]

theorem lookup_appendTurn_self (σ : SessionStore) (s u a : String) :
    lookupSession (appendTurn σ s u a) s =
      some ((getSessionHistory σ s).2 ++ [ChatMsg.human u, ChatMsg.ai a]) := by
  have hself := lookup_getSessionHistory_self σ s
  unfold lookupSession at hself
  unfold appendTurn lookupSession
  rw [find?_map_entry _ (appendTurn_keyfix s u a)]
  cases hfq : (getSessionHistory σ s).1.find? (fun p => p.1 == s) with
  | none =>
      rw [hfq] at hself
      simp at hself
  | some q =>
      rw [hfq] at hself
      have hq2 : q.2 = (getSessionHistory σ s).2 := by simpa using hself
      have hpred := List.find?_some hfq
      have hqs : q.1 = s := by simpa using hpred
      simp [hqs, hq2]

theorem lookup_appendTurn_other (σ : SessionStore) (s t u a : String)
    (h : s ≠ t) :
    lookupSession (appendTurn σ s u a) t = lookupSession σ t := by
  have hother := lookup_getSessionHistory_other σ s t h
  unfold lookupSession at hother
  unfold appendTurn lookupSession
  rw [find?_map_entry _ (appendTurn_keyfix s u a)]
  cases hfq : (getSessionHistory σ s).1.find? (fun p => p.1 == t) with
  | none =>
      rw [hfq] at hother
      rw [← hother]
      rfl
  | some q =>
      rw [hfq] at hother
      have hpred := List.find?_some hfq
      have hqt : q.1 = t := by simpa using hpred
      have hqs : q.1 ≠ s := by
        rw [hqt]
        exact fun he => h he.symm
      rw [← hother]
      simp [hqs]

/-- **C8**: the session store creates an empty history lazily and
idempotently on first `get`; appending turn A then turn B to a session
makes `get` return the prior history followed by A's and B's messages in
order; and appends to one session never change another session's
history. -/
theorem session_history_contract (σ : SessionStore) (s t : String)
    (u1 a1 u2 a2 u a : String) :
    getSessionHistory (getSessionHistory σ s).1 s =
      ((getSessionHistory σ s).1, (getSessionHistory σ s).2)
    ∧ (lookupSession σ s = Option.none →
        (getSessionHistory σ s).1 = σ ++ [(s, [])]
        ∧ (getSessionHistory σ s).2 = [])
    ∧ (getSessionHistory (appendTurn (appendTurn σ s u1 a1) s u2 a2) s).2 =
        (getSessionHistory σ s).2 ++
          [ChatMsg.human u1, ChatMsg.ai a1, ChatMsg.human u2, ChatMsg.ai a2]
    ∧ (s ≠ t →
        (getSessionHistory (appendTurn σ s u a) t).2 = (getSessionHistory σ t).2) := by
  refine ⟨?_, ?_, ?_, ?_⟩
  · have hself := lookup_getSessionHistory_self σ s
    unfold lookupSession at hself
    cases hfq : (getSessionHistory σ s).1.find? (fun p => p.1 == s) with
    | none =>
        rw [hfq] at hself
        simp at hself
    | some q =>
        rw [hfq] at hself
        have hq2 : q.2 = (getSessionHistory σ s).2 := by simpa using hself
        rw [getSessionHistory_eq_found (getSessionHistory σ s).1 s q hfq, hq2]
  · intro hnone
    cases hf : σ.find? (fun q => q.1 == s) with
    | some p =>
        unfold lookupSession at hnone
        rw [hf] at hnone
        simp at hnone
    | none =>
        rw [getSessionHistory_eq_new σ s hf]
        exact ⟨rfl, rfl⟩
  · have hA1 : (getSessionHistory (appendTurn σ s u1 a1) s).2 =
        (getSessionHistory σ s).2 ++ [ChatMsg.human u1, ChatMsg.ai a1] := by
      rw [getSessionHistory_snd, lookup_appendTurn_self]
      rfl
    have hA2 : (getSessionHistory (appendTurn (appendTurn σ s u1 a1) s u2 a2) s).2 =
        (getSessionHistory (appendTurn σ s u1 a1) s).2 ++
          [ChatMsg.human u2, ChatMsg.ai a2] := by
      rw [getSessionHistory_snd, lookup_appendTurn_self]
      rfl
    rw [hA2, hA1, List.append_assoc]
    rfl
  · intro hst
    rw [getSessionHistory_snd, lookup_appendTurn_other σ s t u a hst,
      ← getSessionHistory_snd]

/-- Witness for C8 on concrete sessions: two appended turns come back in
order for `alice`, and `bob`'s history is untouched by them. -/
theorem session_history_contract_witness :
    (getSessionHistory (appendTurn (appendTurn ([] : SessionStore)
        "alice" "hi" "hello") "alice" "bye" "goodbye") "alice").2 =
      [ChatMsg.human "hi", ChatMsg.ai "hello",
        ChatMsg.human "bye", ChatMsg.ai "goodbye"]
    ∧ (getSessionHistory (appendTurn ([("bob", [])] : SessionStore)
        "alice" "x" "y") "bob").2 = [] := by
  have h1 := (session_history_contract ([] : SessionStore)
    "alice" "bob" "hi" "hello" "bye" "goodbye" "x" "y").2.2.1
  have h2 := (session_history_contract ([("bob", [])] : SessionStore)
    "alice" "bob" "hi" "hello" "bye" "goodbye" "x" "y").2.2.2 (by decide)
  refine ⟨?_, ?_⟩
  · rw [h1]
    rfl
  · rw [h2]
    rfl

end DocChatRAG
